import Mathlib

/-!
# The user controller of gin-admin (`src/web/ctl/c_user.go`)

A shallow embedding of the nine handlers of the user controller.  The
controller only parses the request, delegates to the business layer
(`bll.User`) and writes one response.  The packages it imports (`bll`,
`errors`, `schema`, `util`, `context`) are collaborators: the business layer is
a parameter of every handler, the request context is a record of what its
accessors return, and the effects of a handler are recorded in a `World`:
the business-layer state, the trace of business-layer invocations and the
responses written so far.  The request-scoped `ctx.CContext()` handed to
every business-layer call carries cancellation only and is left out.
-/

set_option autoImplicit false

/-! ## Collaborators -/

namespace errors

/-- Modelled from the spec: the error taxonomy of section 7 (the package
`errors` is imported by the controller only). -/
inductive Kind where
  | InvalidArgument
  | NotFound
  | Conflict
  | Internal
  | Cancelled
  deriving DecidableEq

/-- Modelled from the spec: an error is a structured value carrying its kind
and a human-readable message. -/
structure Error where
  kind : Kind
  message : String
  deriving DecidableEq

/-- Modelled from the spec: `errors.NewBadRequestError(msg)` builds the
bad-request (`InvalidArgument`) error with the given message. -/
def NewBadRequestError (msg : String) : Error :=
  { kind := Kind.InvalidArgument, message := msg }

end errors

namespace schema

/-- Modelled from the spec: the `User` entity of section 3 (`schema.User`);
the Go `int` status is an `Int`, the timestamps are naturals. -/
structure User where
  RecordID : String
  UserName : String
  RealName : String
  RoleID : String
  Status : Int
  Created : Nat
  Updated : Nat
  deriving DecidableEq

/-- Modelled from the spec: the rows of a page are users
(`schema.UserPageShow`). -/
abbrev UserPageShow := User

/-- The filter `schema.UserQueryParam`, with the four fields the controller
assigns in `QueryPage`. -/
structure UserQueryParam where
  UserName : String
  RealName : String
  RoleID : String
  Status : Int
  deriving DecidableEq

/-- Modelled from the spec: `PaginationParam`, the requested page index
(1-based) and page length. -/
structure PaginationParam where
  current : Int
  pageSize : Int
  deriving DecidableEq

/-- Modelled from the spec: the pagination metadata of a page,
`{current, pageSize, total}`. -/
structure PaginationResult where
  current : Int
  pageSize : Int
  total : Int
  deriving DecidableEq

/-- Modelled from the spec: `Status` value `Enabled`. -/
def StatusEnabled : Int := 1

/-- Modelled from the spec: `Status` value `Disabled`. -/
def StatusDisabled : Int := 2

end schema

namespace strings

/-- Splitting of a character list at every occurrence of `sep`; `acc` holds
the current piece, reversed.  The last piece is always emitted, so the result
is never empty. -/
def splitChars (sep : Char) : List Char → List Char → List (List Char)
  | [], acc => [acc.reverse]
  | c :: cs, acc =>
    if c = sep then acc.reverse :: splitChars sep cs []
    else splitChars sep cs (c :: acc)

/-- Go's `strings.Split(s, sep)` for a one-character separator (the controller
calls it with `","`): the pieces of `s` between the separators.  A string
without separator, the empty string included, gives the one-element list
`[s]`. -/
def Split (s : String) (sep : Char) : List String :=
  (splitChars sep s.data []).map String.mk

end strings

namespace bll

/-- The business layer `bll.User` as the controller sees it: six operations
on a state of type `σ`.  Every operation returns the state it leaves behind
and its Go results (`error` is `Option`, `(value, error)` is `Except`). -/
structure User (σ : Type) where
  QueryPage : σ → schema.UserQueryParam → schema.PaginationParam →
    σ × Except errors.Error (List schema.UserPageShow × schema.PaginationResult)
  Get : σ → String → σ × Except errors.Error schema.User
  Create : σ → schema.User → σ × Except errors.Error schema.User
  Update : σ → String → schema.User → σ × Option errors.Error
  Delete : σ → String → σ × Option errors.Error
  UpdateStatus : σ → String → Int → σ × Option errors.Error

/-- One invocation of the business layer, with its arguments. -/
inductive Call where
  | QueryPage (params : schema.UserQueryParam) (pp : schema.PaginationParam)
  | Get (recordID : String)
  | Create (item : schema.User)
  | Update (recordID : String) (item : schema.User)
  | Delete (recordID : String)
  | UpdateStatus (recordID : String) (status : Int)
  deriving DecidableEq

end bll

namespace context

/-- The payload `context.HTTPNewItem`, `{record_id: ...}`. -/
structure HTTPNewItem where
  RecordID : String
  deriving DecidableEq

/-- What a handler hands to `ResSuccess`. -/
inductive Payload where
  | user (item : schema.User)
  | newItem (v : HTTPNewItem)
  deriving DecidableEq

/-- One response written by a handler, by the context method that wrote it. -/
inductive Response where
  | ResError (err : errors.Error)
  | ResSuccess (v : Payload)
  | ResOK
  | ResPage (items : List schema.UserPageShow) (pr : schema.PaginationResult)
  deriving DecidableEq

/-- The request as the handlers read it: `Query(key)` (the empty string when
the parameter is absent), `Param(key)`, the outcome of `ParseJSON` on the
body and `GetPaginationParam()`. -/
structure Context where
  Query : String → String
  Param : String → String
  ParseJSON : Except errors.Error schema.User
  GetPaginationParam : schema.PaginationParam

/-- The effects of handlers: the business-layer state, the invocations of
the business layer so far (oldest first) and the responses written so far
(oldest first). -/
structure World (σ : Type) where
  store : σ
  calls : List bll.Call
  written : List Response

variable {σ : Type}

/-- Writes one response. -/
def World.write (w : World σ) (r : Response) : World σ :=
  { w with written := w.written ++ [r] }

/-- Records the invocation `c` and installs the state the business layer
left; the Go results of the call are returned. -/
def World.invoke {α : Type} (w : World σ) (c : bll.Call) (r : σ × α) : World σ × α :=
  ({ w with store := r.1, calls := w.calls ++ [c] }, r.2)

/-- The method `ctx.ResError(err)`: one response is written. -/
def ResError (err : errors.Error) (w : World σ) : World σ :=
  w.write (Response.ResError err)

/-- The method `ctx.ResSuccess(v)`: one response is written. -/
def ResSuccess (v : Payload) (w : World σ) : World σ :=
  w.write (Response.ResSuccess v)

/-- The method `ctx.ResOK()`: one response is written. -/
def ResOK (w : World σ) : World σ :=
  w.write Response.ResOK

/-- The method `ctx.ResPage(items, pr)`: one response is written. -/
def ResPage (items : List schema.UserPageShow) (pr : schema.PaginationResult)
    (w : World σ) : World σ :=
  w.write (Response.ResPage items pr)

end context

namespace util

/-- Value of a list of decimal digits, most significant first; `none` when a
character is not a digit. -/
def digitsValue : List Char → Nat → Option Nat
  | [], acc => some acc
  | c :: cs, acc =>
    if c.isDigit then digitsValue cs (acc * 10 + (c.toNat - 48)) else none

/-- Modelled from the spec: `util.S(s).Int()`, the integer value of a query
value (the `status` parameter is an `int`): an optional sign followed by
decimal digits; any other text, the empty string included, gives `0`, the
"unset" status. -/
def S.Int (s : String) : ℤ :=
  match s.data with
  | [] => 0
  | '-' :: ds => if ds = [] then 0 else (digitsValue ds 0).elim 0 (fun n => -(n : ℤ))
  | '+' :: ds => if ds = [] then 0 else (digitsValue ds 0).elim 0 (fun n => (n : ℤ))
  | ds => (digitsValue ds 0).elim 0 (fun n => (n : ℤ))

end util

/-! ## The controller -/

namespace ctl

open context

/-- The controller `ctl.User`: its only field is the injected business
layer. -/
structure User (σ : Type) where
  UserBll : bll.User σ

variable {σ : Type}

/-- The filter `params` that `User.QueryPage` fills from the query values. -/
def User.QueryPage.params (ctx : Context) : schema.UserQueryParam :=
  { UserName := ctx.Query "user_name"
    RealName := ctx.Query "real_name"
    RoleID := ctx.Query "role_id"
    Status := util.S.Int (ctx.Query "status") }

/-- The handler `User.QueryPage` (`c_user.go`, lines 44-58). -/
def User.QueryPage (a : User σ) (ctx : Context) (w : World σ) : World σ :=
  let params := User.QueryPage.params ctx
  match w.invoke (bll.Call.QueryPage params ctx.GetPaginationParam)
      (a.UserBll.QueryPage w.store params ctx.GetPaginationParam) with
  | (w1, Except.error err) => ResError err w1
  | (w1, Except.ok (items, pr)) => ResPage items pr w1

/-- The handler `User.Query` (`c_user.go`, lines 21-28). -/
def User.Query (a : User σ) (ctx : Context) (w : World σ) : World σ :=
  if ctx.Query "q" = "page" then a.QueryPage ctx w
  else ResError (errors.NewBadRequestError "未知的查询类型") w

/-- The handler `User.Get` (`c_user.go`, lines 70-78). -/
def User.Get (a : User σ) (ctx : Context) (w : World σ) : World σ :=
  match w.invoke (bll.Call.Get (ctx.Param "id")) (a.UserBll.Get w.store (ctx.Param "id")) with
  | (w1, Except.error err) => ResError err w1
  | (w1, Except.ok item) => ResSuccess (Payload.user item) w1

/-- The handler `User.Create` (`c_user.go`, lines 89-103). -/
def User.Create (a : User σ) (ctx : Context) (w : World σ) : World σ :=
  match ctx.ParseJSON with
  | Except.error err => ResError err w
  | Except.ok item =>
    match w.invoke (bll.Call.Create item) (a.UserBll.Create w.store item) with
    | (w1, Except.error err) => ResError err w1
    | (w1, Except.ok newItem) =>
      ResSuccess (Payload.newItem { RecordID := newItem.RecordID }) w1

/-- The handler `User.Update` (`c_user.go`, lines 115-128). -/
def User.Update (a : User σ) (ctx : Context) (w : World σ) : World σ :=
  match ctx.ParseJSON with
  | Except.error err => ResError err w
  | Except.ok item =>
    match w.invoke (bll.Call.Update (ctx.Param "id") item)
        (a.UserBll.Update w.store (ctx.Param "id") item) with
    | (w1, some err) => ResError err w1
    | (w1, none) => ResOK w1

/-- The handler `User.Delete` (`c_user.go`, lines 138-145). -/
def User.Delete (a : User σ) (ctx : Context) (w : World σ) : World σ :=
  match w.invoke (bll.Call.Delete (ctx.Param "id")) (a.UserBll.Delete w.store (ctx.Param "id")) with
  | (w1, some err) => ResError err w1
  | (w1, none) => ResOK w1

/-- The `for _, id := range ids` loop of `User.DeleteMany`.  The flag is
`true` when the loop body returned from the handler (after `ResError`). -/
def User.DeleteMany.loop (a : User σ) : List String → World σ → World σ × Bool
  | [], w => (w, false)
  | id :: ids, w =>
    match w.invoke (bll.Call.Delete id) (a.UserBll.Delete w.store id) with
    | (w1, some err) => (ResError err w1, true)
    | (w1, none) => User.DeleteMany.loop a ids w1

/-- The handler `User.DeleteMany` (`c_user.go`, lines 156-172). -/
def User.DeleteMany (a : User σ) (ctx : Context) (w : World σ) : World σ :=
  let ids := strings.Split (ctx.Query "batch") ','
  if ids.length = 0 then
    ResError (errors.NewBadRequestError "无效的请求参数") w
  else
    match User.DeleteMany.loop a ids w with
    | (w1, true) => w1
    | (w1, false) => ResOK w1

/-- The handler `User.Enable` (`c_user.go`, lines 182-189). -/
def User.Enable (a : User σ) (ctx : Context) (w : World σ) : World σ :=
  match w.invoke (bll.Call.UpdateStatus (ctx.Param "id") 1)
      (a.UserBll.UpdateStatus w.store (ctx.Param "id") 1) with
  | (w1, some err) => ResError err w1
  | (w1, none) => ResOK w1

/-- The handler `User.Disable` (`c_user.go`, lines 199-206). -/
def User.Disable (a : User σ) (ctx : Context) (w : World σ) : World σ :=
  match w.invoke (bll.Call.UpdateStatus (ctx.Param "id") 2)
      (a.UserBll.UpdateStatus w.store (ctx.Param "id") 2) with
  | (w1, some err) => ResError err w1
  | (w1, none) => ResOK w1

/-- A handler writes exactly one response on the request `ctx` in the world
`w`: the responses after the invocation are those before it followed by
one more. -/
def WritesOneResponse (h : Context → World σ → World σ) (ctx : Context) (w : World σ) : Prop :=
  ∃ r : Response, (h ctx w).written = w.written ++ [r]

end ctl

/-! ## A business layer following the specification

The package `bll` is not part of the controller's file.  The store below
follows section 4.1 of the specification; it is the business layer of the
statement about what `Update` ignores, and the concrete business layer on
which the statements about the controller are instantiated. -/

namespace bll

/-- Modelled from the spec: the persisted state behind `bll.User`: the live
records in creation order, the number of record ids assigned so far (a
`RecordID` is never reused) and the configured maximum page size. -/
structure Store where
  records : List schema.User
  assigned : Nat
  maxPageSize : Int
  deriving DecidableEq

/-- Modelled from the spec: the error kind `NotFound` (the controller's
documentation gives the message of its 404 response). -/
def ErrNotFound : errors.Error :=
  { kind := errors.Kind.NotFound, message := "资源不存在" }

/-- Modelled from the spec: the error kind `InvalidArgument` raised by the
business layer. -/
def ErrInvalidArgument : errors.Error :=
  errors.NewBadRequestError "无效的请求参数"

/-- Modelled from the spec: substring match, `sub` occurs in `s`. -/
def containsChars (sub : List Char) : List Char → Bool
  | [] => sub.isEmpty
  | c :: cs => sub.isPrefixOf (c :: cs) || containsChars sub cs

/-- Modelled from the spec: the filter of `QueryPage`: every set field is a
predicate and the predicates are AND-combined; an unset field (the empty
string, status `0`) imposes no constraint; `UserName` and `RealName` match as
substrings, `RoleID` and `Status` exactly. -/
def Store.matches (p : schema.UserQueryParam) (u : schema.User) : Bool :=
  (p.UserName = "" || containsChars p.UserName.data u.UserName.data) &&
  (p.RealName = "" || containsChars p.RealName.data u.RealName.data) &&
  (p.RoleID = "" || u.RoleID = p.RoleID) &&
  (p.Status = 0 || u.Status = p.Status)

/-- Modelled from the spec: `QueryPage(filter, pagination)`: fails with
`InvalidArgument` if `current < 1`, `pageSize < 1` or `pageSize` exceeds the
configured maximum; otherwise returns the page of the matching records, in
the store's order, and the count of matching records before pagination. -/
def Store.QueryPage (s : Store) (p : schema.UserQueryParam) (pp : schema.PaginationParam) :
    Store × Except errors.Error (List schema.UserPageShow × schema.PaginationResult) :=
  if pp.current < 1 ∨ pp.pageSize < 1 ∨ s.maxPageSize < pp.pageSize then
    (s, Except.error ErrInvalidArgument)
  else
    let hits := s.records.filter (Store.matches p)
    let offset := ((pp.current - 1) * pp.pageSize).toNat
    (s, Except.ok ((hits.drop offset).take pp.pageSize.toNat,
      { current := pp.current, pageSize := pp.pageSize, total := hits.length }))

/-- Modelled from the spec: `Get(id)`: the live record with that id, or
`NotFound`. -/
def Store.Get (s : Store) (id : String) : Store × Except errors.Error schema.User :=
  match s.records.find? (fun u => u.RecordID = id) with
  | some u => (s, Except.ok u)
  | none => (s, Except.error ErrNotFound)

/-- Modelled from the spec: the `RecordID` the server assigns to the `n`-th
created record (an opaque string, different for different `n`). -/
def Store.recordID (n : Nat) : String :=
  String.mk ('u' :: List.replicate n '+')

/-- Modelled from the spec: `Create(item)`: fails with `InvalidArgument` if
`UserName` is empty or in use by a live record; otherwise the server assigns
the `RecordID`, defaults `Status` to `Enabled` if unset, and persists one new
record, which it returns. -/
def Store.Create (s : Store) (item : schema.User) : Store × Except errors.Error schema.User :=
  if item.UserName = "" ∨ s.records.any (fun u => u.UserName = item.UserName) then
    (s, Except.error ErrInvalidArgument)
  else
    let newItem : schema.User :=
      { item with
        RecordID := Store.recordID s.assigned
        Status := if item.Status = 0 then schema.StatusEnabled else item.Status }
    ({ s with records := s.records ++ [newItem], assigned := s.assigned + 1 }, Except.ok newItem)

/-- Modelled from the spec: `Update(id, item)`: fails with `NotFound` if the
id does not exist and with `InvalidArgument` if another live record already
has the item's `UserName`; otherwise the record takes the fields of `item`,
except `RecordID` and `Status`, which are ignored. -/
def Store.Update (s : Store) (id : String) (item : schema.User) : Store × Option errors.Error :=
  if ¬ s.records.any (fun u => u.RecordID = id) then
    (s, some ErrNotFound)
  else if s.records.any (fun u => u.RecordID ≠ id ∧ u.UserName = item.UserName) then
    (s, some ErrInvalidArgument)
  else
    ({ s with
       records := s.records.map (fun u =>
         if u.RecordID = id then { item with RecordID := u.RecordID, Status := u.Status } else u) },
     none)

/-- Modelled from the spec: `Delete(id)`: fails with `NotFound` if the id
does not exist (also on a second delete of the same id); otherwise the
record is removed. -/
def Store.Delete (s : Store) (id : String) : Store × Option errors.Error :=
  if ¬ s.records.any (fun u => u.RecordID = id) then
    (s, some ErrNotFound)
  else
    ({ s with records := s.records.filter (fun u => u.RecordID ≠ id) }, none)

/-- Modelled from the spec: `UpdateStatus(id, status)`: fails with `NotFound`
if the id does not exist; otherwise sets the status (setting the status the
record already has changes nothing). -/
def Store.UpdateStatus (s : Store) (id : String) (status : Int) : Store × Option errors.Error :=
  if ¬ s.records.any (fun u => u.RecordID = id) then
    (s, some ErrNotFound)
  else
    ({ s with
       records := s.records.map (fun u =>
         if u.RecordID = id then { u with Status := status } else u) },
     none)

/-- Modelled from the spec: the business layer over a `Store`. -/
def Store.UserBll : bll.User Store where
  QueryPage := Store.QueryPage
  Get := Store.Get
  Create := Store.Create
  Update := Store.Update
  Delete := Store.Delete
  UpdateStatus := Store.UpdateStatus

variable {σ : Type}

/-- The state left by invoking `Delete` on the ids of a list, one after the
other. -/
def User.deleteAll (B : bll.User σ) (ids : List String) (s : σ) : σ :=
  ids.foldl (fun t id => (B.Delete t id).1) s

/-- Every `Delete` of the list succeeds when the ids are deleted one after
the other, starting in state `s`. -/
def User.deletesSucceed (B : bll.User σ) : List String → σ → Prop
  | [], _ => True
  | id :: ids, s => (B.Delete s id).2 = none ∧ User.deletesSucceed B ids (B.Delete s id).1

end bll

namespace ctl

/-- The controller wired to the business layer over a `Store`. -/
def User.overStore : User bll.Store :=
  { UserBll := bll.Store.UserBll }

end ctl

/-! ## Concrete requests and states -/

namespace sample

/-- A user record with the given id, name and status. -/
def user (id name : String) (status : Int) : schema.User :=
  { RecordID := id, UserName := name, RealName := "", RoleID := "", Status := status,
    Created := 0, Updated := 0 }

/-- A store holding the live records `a` and `c` (there is no record `b`). -/
def store : bll.Store :=
  { records := [user "a" "alice" 1, user "c" "carol" 2], assigned := 2, maxPageSize := 100 }

/-- The world before a request: nothing invoked, nothing written. -/
def world : context.World bll.Store :=
  { store := store, calls := [], written := [] }

/-- The parse error of a malformed body. -/
def parseError : errors.Error :=
  errors.NewBadRequestError "无效的请求参数"

/-- A request with the given query parameters, path id and parsed body. -/
def request (query : List (String × String)) (id : String)
    (body : Except errors.Error schema.User) : context.Context :=
  { Query := fun k => ((query.find? (fun kv => kv.1 = k)).map Prod.snd).getD ""
    Param := fun k => if k = "id" then id else ""
    ParseJSON := body
    GetPaginationParam := { current := 1, pageSize := 10 } }

end sample

/-! ## Auxiliary facts -/

namespace strings

theorem splitChars_ne_nil (sep : Char) (cs acc : List Char) : splitChars sep cs acc ≠ [] := by
  induction cs generalizing acc with
  | nil => simp [splitChars]
  | cons c cs ih =>
    unfold splitChars
    split
    · simp
    · exact ih (c :: acc)

theorem Split_ne_nil (s : String) (sep : Char) : Split s sep ≠ [] := by
  unfold Split
  intro h
  exact splitChars_ne_nil sep s.data [] (List.map_eq_nil_iff.mp h)

theorem Split_length_ne_zero (s : String) (sep : Char) : (Split s sep).length ≠ 0 := by
  intro h
  exact Split_ne_nil s sep (List.length_eq_zero.mp h)

/-- A piece without separator is not split. -/
theorem splitChars_no_sep (sep : Char) (cs acc : List Char) (h : sep ∉ cs) :
    splitChars sep cs acc = [acc.reverse ++ cs] := by
  induction cs generalizing acc with
  | nil => simp [splitChars]
  | cons c cs ih =>
    have hc : c ≠ sep := fun hc => h (by simp [hc])
    have hcs : sep ∉ cs := fun hm => h (List.mem_cons_of_mem _ hm)
    simp [splitChars, hc, ih (c :: acc) hcs]

/-- A piece without separator, followed by a separator, is the first piece. -/
theorem splitChars_append_sep (sep : Char) (cs rest acc : List Char) (h : sep ∉ cs) :
    splitChars sep (cs ++ sep :: rest) acc = (acc.reverse ++ cs) :: splitChars sep rest [] := by
  induction cs generalizing acc with
  | nil => simp [splitChars]
  | cons c cs ih =>
    have hc : c ≠ sep := fun hc => h (by simp [hc])
    have hcs : sep ∉ cs := fun hm => h (List.mem_cons_of_mem _ hm)
    simp [splitChars, hc, ih (c :: acc) hcs]

/-- The characters of strings joined with a separator. -/
theorem intercalate_go_data (sep acc : String) (ids : List String) :
    (String.intercalate.go acc sep ids).data =
      acc.data ++ (ids.map (fun id => sep.data ++ id.data)).flatten := by
  induction ids generalizing acc with
  | nil => simp [String.intercalate.go]
  | cons id ids ih => simp [String.intercalate.go, ih]

/-- Every non-empty list of ids without a comma is the list of ids of some
request: splitting the ids joined by commas gives the ids back. -/
theorem Split_intercalate (ids : List String) (hne : ids ≠ [])
    (hsep : ∀ id ∈ ids, ',' ∉ id.data) :
    Split (String.intercalate "," ids) ',' = ids := by
  cases ids with
  | nil => exact absurd rfl hne
  | cons id ids =>
    unfold Split
    simp only [String.intercalate, intercalate_go_data]
    clear hne
    induction ids generalizing id with
    | nil =>
      have h := hsep id (by simp)
      simp [splitChars_no_sep _ _ _ h]
    | cons id2 ids ih =>
      have h := hsep id (by simp)
      have hrest := ih id2 (fun x hx => hsep x (List.mem_cons_of_mem _ hx))
      have hd : ("," : String).data = [','] := rfl
      simp only [List.map_cons, List.flatten_cons, hd, List.singleton_append, List.cons_append,
        List.nil_append, List.append_assoc] at hrest ⊢
      rw [splitChars_append_sep _ _ _ _ h]
      simp only [List.map_cons, List.reverse_nil, List.nil_append]
      rw [hrest]

end strings

namespace bll

variable {σ : Type}

/-- A failed `Delete` of the store leaves the store as it found it. -/
theorem Store.Delete_failure_keeps_state (s : Store) (id : String) (e : errors.Error)
    (h : (Store.Delete s id).2 = some e) : (Store.Delete s id).1 = s := by
  unfold Store.Delete at h ⊢
  split
  · rfl
  · rename_i hex
    rw [if_neg hex] at h
    exact absurd h (by simp)

theorem User.deleteAll_nil (B : bll.User σ) (s : σ) : B.deleteAll [] s = s := rfl

theorem User.deleteAll_cons (B : bll.User σ) (id : String) (ids : List String) (s : σ) :
    B.deleteAll (id :: ids) s = B.deleteAll ids (B.Delete s id).1 := rfl

/-- If not every `Delete` succeeds, the list splits at the first id whose
`Delete` fails. -/
theorem User.first_failure (B : bll.User σ) (ids : List String) (s : σ)
    (h : ¬ B.deletesSucceed ids s) :
    ∃ pre bad post e, ids = pre ++ bad :: post ∧ B.deletesSucceed pre s ∧
      (B.Delete (B.deleteAll pre s) bad).2 = some e := by
  induction ids generalizing s with
  | nil => exact absurd trivial h
  | cons id ids ih =>
    cases hd : (B.Delete s id).2 with
    | some e => exact ⟨[], id, ids, e, rfl, trivial, hd⟩
    | none =>
      have h2 : ¬ B.deletesSucceed ids (B.Delete s id).1 := fun hs => h ⟨hd, hs⟩
      obtain ⟨pre, bad, post, e, hids, hpre, hbad⟩ := ih _ h2
      exact ⟨id :: pre, bad, post, e, by simp [hids], ⟨hd, hpre⟩, hbad⟩

end bll

namespace ctl

open context

variable {σ : Type}

/-- The loop of `DeleteMany` on a list whose deletions all succeed: every id
is deleted, in order, nothing is written and the loop runs to its end. -/
theorem User.DeleteMany.loop_succeed (a : User σ) (ids : List String) (w : World σ)
    (h : a.UserBll.deletesSucceed ids w.store) :
    User.DeleteMany.loop a ids w =
      ({ store := a.UserBll.deleteAll ids w.store
         calls := w.calls ++ ids.map bll.Call.Delete
         written := w.written }, false) := by
  induction ids generalizing w with
  | nil => simp [User.DeleteMany.loop, bll.User.deleteAll]
  | cons id ids ih =>
    obtain ⟨hd, hs⟩ := h
    unfold User.DeleteMany.loop
    cases hr : a.UserBll.Delete w.store id with
    | mk s1 r =>
      rw [hr] at hd hs
      simp only at hd hs
      subst hd
      simp only [World.invoke]
      rw [ih _ hs]
      simp [bll.User.deleteAll_cons, hr]

/-- The loop of `DeleteMany` on a list whose first failing id is `bad`: the
ids up to `bad` are deleted, in order, the error of `bad` is written and the
loop returns from the handler. -/
theorem User.DeleteMany.loop_fail (a : User σ) (pre post : List String) (bad : String)
    (e : errors.Error) (w : World σ)
    (hpre : a.UserBll.deletesSucceed pre w.store)
    (hbad : (a.UserBll.Delete (a.UserBll.deleteAll pre w.store) bad).2 = some e) :
    User.DeleteMany.loop a (pre ++ bad :: post) w =
      ({ store := (a.UserBll.Delete (a.UserBll.deleteAll pre w.store) bad).1
         calls := w.calls ++ (pre ++ [bad]).map bll.Call.Delete
         written := w.written ++ [Response.ResError e] }, true) := by
  induction pre generalizing w with
  | nil =>
    simp only [List.nil_append, bll.User.deleteAll_nil] at hbad ⊢
    unfold User.DeleteMany.loop
    cases hr : a.UserBll.Delete w.store bad with
    | mk s1 r =>
      rw [hr] at hbad
      simp only at hbad
      subst hbad
      simp [World.invoke, ResError, World.write]
  | cons id pre ih =>
    obtain ⟨hd, hs⟩ := hpre
    rw [bll.User.deleteAll_cons] at hbad ⊢
    simp only [List.cons_append]
    unfold User.DeleteMany.loop
    cases hr : a.UserBll.Delete w.store id with
    | mk s1 r =>
      rw [hr] at hd hs hbad
      simp only at hd hs hbad ⊢
      subst hd
      simp only [World.invoke]
      rw [ih _ hs hbad]
      simp

/-- The handler `DeleteMany` always enters its loop: the list of ids is never
empty. -/
theorem User.DeleteMany_eq_loop (a : User σ) (ctx : Context) (w : World σ) :
    a.DeleteMany ctx w =
      match User.DeleteMany.loop a (strings.Split (ctx.Query "batch") ',') w with
      | (w1, true) => w1
      | (w1, false) => ResOK w1 := by
  unfold User.DeleteMany
  simp only [strings.Split_length_ne_zero, if_false]

end ctl

/-! ## The bulk deletion -/

namespace ctl

open context

variable {σ : Type}

/-- C1: `DeleteMany` processes the ids in the given order and stops at the
first failure without rollback.  If the list of ids is `pre ++ bad :: post`,
the deletions of `pre` succeed one after the other and the `Delete` of `bad`
fails, then the business layer has been invoked with `Delete` exactly on the
ids of `pre` and then on `bad`, in that order and once each, and on no id of
`post`; and, a failed `Delete` leaving the state as it found it, the
resulting state is the one produced by the successful deletions of `pre`. -/
theorem User.DeleteMany_stops_at_first_failure (a : User σ) (ctx : Context) (w : World σ)
    (pre post : List String) (bad : String) (e : errors.Error)
    (hids : strings.Split (ctx.Query "batch") ',' = pre ++ bad :: post)
    (hpre : a.UserBll.deletesSucceed pre w.store)
    (hbad : (a.UserBll.Delete (a.UserBll.deleteAll pre w.store) bad).2 = some e)
    (hframe : (a.UserBll.Delete (a.UserBll.deleteAll pre w.store) bad).1 =
      a.UserBll.deleteAll pre w.store) :
    (a.DeleteMany ctx w).calls = w.calls ++ (pre ++ [bad]).map bll.Call.Delete ∧
    (a.DeleteMany ctx w).store = a.UserBll.deleteAll pre w.store := by
  rw [User.DeleteMany_eq_loop, hids, User.DeleteMany.loop_fail a pre post bad e w hpre hbad]
  exact ⟨rfl, hframe⟩

/-- C1, on `DeleteMany([a, b, c])` with `b` missing: `Delete` is invoked on
`a` and on `b`, `a` is deleted and `c` is left untouched. -/
theorem User.DeleteMany_stops_at_first_failure_witness :
    strings.Split ((sample.request [("batch", "a,b,c")] "" (Except.error sample.parseError)).Query
      "batch") ',' = ["a"] ++ "b" :: ["c"] ∧
    (User.overStore.DeleteMany (sample.request [("batch", "a,b,c")] ""
        (Except.error sample.parseError)) sample.world).calls =
      sample.world.calls ++ (["a"] ++ ["b"]).map bll.Call.Delete ∧
    (User.overStore.DeleteMany (sample.request [("batch", "a,b,c")] ""
        (Except.error sample.parseError)) sample.world).store =
      User.overStore.UserBll.deleteAll ["a"] sample.world.store ∧
    (User.overStore.UserBll.deleteAll ["a"] sample.world.store).records =
      [sample.user "c" "carol" 2] :=
  ⟨by decide,
   (User.DeleteMany_stops_at_first_failure User.overStore
      (sample.request [("batch", "a,b,c")] "" (Except.error sample.parseError)) sample.world
      ["a"] ["c"] "b" bll.ErrNotFound (by decide) ⟨by decide, trivial⟩ (by decide) (by decide)).1,
   (User.DeleteMany_stops_at_first_failure User.overStore
      (sample.request [("batch", "a,b,c")] "" (Except.error sample.parseError)) sample.world
      ["a"] ["c"] "b" bll.ErrNotFound (by decide) ⟨by decide, trivial⟩ (by decide) (by decide)).2,
   by decide⟩

/-- C2 (what the code does): when the `batch` parameter is absent or empty,
the list of ids is `[""]`, not the empty list; the guard `len(ids) == 0` does
not fire, `Delete` is invoked on the empty id and the response is the outcome
of that deletion. -/
theorem User.DeleteMany_empty_batch_invokes_Delete (a : User σ) (ctx : Context) (w : World σ)
    (hbatch : ctx.Query "batch" = "") :
    (a.DeleteMany ctx w).calls = w.calls ++ [bll.Call.Delete ""] ∧
    (a.DeleteMany ctx w).written = w.written ++
      [match (a.UserBll.Delete w.store "").2 with
       | some err => Response.ResError err
       | none => Response.ResOK] := by
  have hsplit : strings.Split (ctx.Query "batch") ',' = [""] := by rw [hbatch]; rfl
  rw [User.DeleteMany_eq_loop, hsplit]
  unfold User.DeleteMany.loop
  cases hr : a.UserBll.Delete w.store "" with
  | mk s1 r =>
    cases r with
    | some err => simp [World.invoke, ResError, World.write]
    | none => simp [World.invoke, User.DeleteMany.loop, ResOK, World.write]

/-- C2, on a request without `batch` against a store without the empty id:
`Delete("")` is invoked and the response is its `NotFound` error, not a bad
request. -/
theorem User.DeleteMany_empty_batch_invokes_Delete_witness :
    (sample.request [] "" (Except.error sample.parseError)).Query "batch" = "" ∧
    (User.overStore.DeleteMany (sample.request [] "" (Except.error sample.parseError))
        sample.world).calls = [bll.Call.Delete ""] ∧
    (User.overStore.DeleteMany (sample.request [] "" (Except.error sample.parseError))
        sample.world).written = [Response.ResError bll.ErrNotFound] :=
  ⟨by decide,
   (User.DeleteMany_empty_batch_invokes_Delete User.overStore
      (sample.request [] "" (Except.error sample.parseError)) sample.world (by decide)).1,
   (User.DeleteMany_empty_batch_invokes_Delete User.overStore
      (sample.request [] "" (Except.error sample.parseError)) sample.world (by decide)).2⟩

/-- C3: `DeleteMany` responds with `{status:OK}` if and only if the `Delete`
of every id of the list succeeds; otherwise its one response is exactly the
error returned by the first failing `Delete`. -/
theorem User.DeleteMany_responds_OK_iff (a : User σ) (ctx : Context) (w : World σ) :
    ((a.DeleteMany ctx w).written = w.written ++ [Response.ResOK] ↔
      a.UserBll.deletesSucceed (strings.Split (ctx.Query "batch") ',') w.store) ∧
    (∀ (pre post : List String) (bad : String) (e : errors.Error),
      strings.Split (ctx.Query "batch") ',' = pre ++ bad :: post →
      a.UserBll.deletesSucceed pre w.store →
      (a.UserBll.Delete (a.UserBll.deleteAll pre w.store) bad).2 = some e →
      (a.DeleteMany ctx w).written = w.written ++ [Response.ResError e]) := by
  have hfail : ∀ (pre post : List String) (bad : String) (e : errors.Error),
      strings.Split (ctx.Query "batch") ',' = pre ++ bad :: post →
      a.UserBll.deletesSucceed pre w.store →
      (a.UserBll.Delete (a.UserBll.deleteAll pre w.store) bad).2 = some e →
      (a.DeleteMany ctx w).written = w.written ++ [Response.ResError e] := by
    intro pre post bad e hids hpre hbad
    rw [User.DeleteMany_eq_loop, hids, User.DeleteMany.loop_fail a pre post bad e w hpre hbad]
  refine ⟨⟨fun hok => ?_, fun hall => ?_⟩, hfail⟩
  · by_contra hnot
    obtain ⟨pre, bad, post, e, hids, hpre, hbad⟩ := bll.User.first_failure _ _ _ hnot
    rw [hfail pre post bad e hids hpre hbad] at hok
    simp at hok
  · rw [User.DeleteMany_eq_loop, User.DeleteMany.loop_succeed a _ w hall]
    rfl

/-- C3, on the store with the records `a` and `c`: the batch `a,c` is
answered with OK, the batch `a,b,c` with the `NotFound` error of `b`. -/
theorem User.DeleteMany_responds_OK_iff_witness :
    (User.overStore.DeleteMany (sample.request [("batch", "a,c")] ""
        (Except.error sample.parseError)) sample.world).written =
      sample.world.written ++ [Response.ResOK] ∧
    (User.overStore.DeleteMany (sample.request [("batch", "a,b,c")] ""
        (Except.error sample.parseError)) sample.world).written =
      sample.world.written ++ [Response.ResError bll.ErrNotFound] :=
  ⟨(User.DeleteMany_responds_OK_iff User.overStore
      (sample.request [("batch", "a,c")] "" (Except.error sample.parseError))
      sample.world).1.mpr (by
        show User.overStore.UserBll.deletesSucceed ["a", "c"] sample.world.store
        exact ⟨by decide, by decide, trivial⟩),
   (User.DeleteMany_responds_OK_iff User.overStore
      (sample.request [("batch", "a,b,c")] "" (Except.error sample.parseError))
      sample.world).2 ["a"] ["c"] "b" bll.ErrNotFound (by decide) ⟨by decide, trivial⟩
      (by decide)⟩

end ctl

/-! ## Creation, update and status -/

namespace ctl

open context

variable {σ : Type}

/-- C4: `Create` returns the server-assigned `RecordID`.  For a body that
parses to `item`, whatever `RecordID` it carries: if the business layer's
`Create` succeeds with `newItem`, the response is the success payload whose
`record_id` is `newItem.RecordID`; if it fails, the response is that error
(and no `record_id`). -/
theorem User.Create_returns_assigned_RecordID (a : User σ) (ctx : Context) (w : World σ)
    (item : schema.User) (hparse : ctx.ParseJSON = Except.ok item) :
    (∀ (s1 : σ) (newItem : schema.User),
      a.UserBll.Create w.store item = (s1, Except.ok newItem) →
      (a.Create ctx w).written =
        w.written ++ [Response.ResSuccess (Payload.newItem { RecordID := newItem.RecordID })]) ∧
    (∀ (s1 : σ) (err : errors.Error),
      a.UserBll.Create w.store item = (s1, Except.error err) →
      (a.Create ctx w).written = w.written ++ [Response.ResError err]) := by
  constructor
  · intro s1 newItem h
    simp [User.Create, hparse, h, World.invoke, ResSuccess, World.write]
  · intro s1 err h
    simp [User.Create, hparse, h, World.invoke, ResError, World.write]

/-- C4, on the store with the records `a` and `c`: a body carrying the
`RecordID` `mine` is answered with the id the server assigned; a body with a
user name in use is answered with the error of the business layer. -/
theorem User.Create_returns_assigned_RecordID_witness :
    (User.overStore.Create (sample.request [] "" (Except.ok (sample.user "mine" "bob" 0)))
        sample.world).written =
      sample.world.written ++
        [Response.ResSuccess (Payload.newItem { RecordID := bll.Store.recordID 2 })] ∧
    (User.overStore.Create (sample.request [] "" (Except.ok (sample.user "mine" "alice" 0)))
        sample.world).written =
      sample.world.written ++ [Response.ResError bll.ErrInvalidArgument] :=
  ⟨(User.Create_returns_assigned_RecordID User.overStore
      (sample.request [] "" (Except.ok (sample.user "mine" "bob" 0))) sample.world
      (sample.user "mine" "bob" 0) rfl).1
      (User.overStore.UserBll.Create sample.world.store (sample.user "mine" "bob" 0)).1
      { sample.user "mine" "bob" 0 with RecordID := bll.Store.recordID 2, Status := 1 }
      rfl,
   (User.Create_returns_assigned_RecordID User.overStore
      (sample.request [] "" (Except.ok (sample.user "mine" "alice" 0))) sample.world
      (sample.user "mine" "alice" 0) rfl).2
      sample.world.store bll.ErrInvalidArgument rfl⟩

/-- C5: `Enable` and `Disable` are the status transitions and use the enum
values.  `Enable` invokes `UpdateStatus` exactly once, with the path id and
status 1 (`Enabled`), and the resulting state is the state that invocation
left; `Disable` does the same with status 2 (`Disabled`); neither passes any
other status.  Each responds OK if and only if its invocation succeeds, and
with the error of the invocation otherwise. -/
theorem User.Enable_Disable_use_enum_values (a : User σ) (ctx : Context) (w : World σ) :
    (a.Enable ctx w).calls =
      w.calls ++ [bll.Call.UpdateStatus (ctx.Param "id") schema.StatusEnabled] ∧
    (a.Enable ctx w).store =
      (a.UserBll.UpdateStatus w.store (ctx.Param "id") schema.StatusEnabled).1 ∧
    ((a.Enable ctx w).written = w.written ++ [Response.ResOK] ↔
      (a.UserBll.UpdateStatus w.store (ctx.Param "id") schema.StatusEnabled).2 = none) ∧
    (a.Enable ctx w).written = w.written ++
      [match (a.UserBll.UpdateStatus w.store (ctx.Param "id") schema.StatusEnabled).2 with
       | some err => Response.ResError err
       | none => Response.ResOK] ∧
    (a.Disable ctx w).calls =
      w.calls ++ [bll.Call.UpdateStatus (ctx.Param "id") schema.StatusDisabled] ∧
    (a.Disable ctx w).store =
      (a.UserBll.UpdateStatus w.store (ctx.Param "id") schema.StatusDisabled).1 ∧
    ((a.Disable ctx w).written = w.written ++ [Response.ResOK] ↔
      (a.UserBll.UpdateStatus w.store (ctx.Param "id") schema.StatusDisabled).2 = none) ∧
    (a.Disable ctx w).written = w.written ++
      [match (a.UserBll.UpdateStatus w.store (ctx.Param "id") schema.StatusDisabled).2 with
       | some err => Response.ResError err
       | none => Response.ResOK] := by
  refine ⟨?_, ?_, ?_, ?_, ?_, ?_, ?_, ?_⟩
  · unfold User.Enable schema.StatusEnabled
    cases hr : a.UserBll.UpdateStatus w.store (ctx.Param "id") 1 with
    | mk s1 r => cases r <;> simp [World.invoke, ResError, ResOK, World.write]
  · unfold User.Enable schema.StatusEnabled
    cases hr : a.UserBll.UpdateStatus w.store (ctx.Param "id") 1 with
    | mk s1 r => cases r <;> simp [World.invoke, ResError, ResOK, World.write]
  · unfold User.Enable schema.StatusEnabled
    cases hr : a.UserBll.UpdateStatus w.store (ctx.Param "id") 1 with
    | mk s1 r => cases r <;> simp [World.invoke, ResError, ResOK, World.write]
  · unfold User.Enable schema.StatusEnabled
    cases hr : a.UserBll.UpdateStatus w.store (ctx.Param "id") 1 with
    | mk s1 r => cases r <;> simp [World.invoke, ResError, ResOK, World.write]
  · unfold User.Disable schema.StatusDisabled
    cases hr : a.UserBll.UpdateStatus w.store (ctx.Param "id") 2 with
    | mk s1 r => cases r <;> simp [World.invoke, ResError, ResOK, World.write]
  · unfold User.Disable schema.StatusDisabled
    cases hr : a.UserBll.UpdateStatus w.store (ctx.Param "id") 2 with
    | mk s1 r => cases r <;> simp [World.invoke, ResError, ResOK, World.write]
  · unfold User.Disable schema.StatusDisabled
    cases hr : a.UserBll.UpdateStatus w.store (ctx.Param "id") 2 with
    | mk s1 r => cases r <;> simp [World.invoke, ResError, ResOK, World.write]
  · unfold User.Disable schema.StatusDisabled
    cases hr : a.UserBll.UpdateStatus w.store (ctx.Param "id") 2 with
    | mk s1 r => cases r <;> simp [World.invoke, ResError, ResOK, World.write]

/-- C5, on the store with the records `a` (enabled) and `c` (disabled):
`Enable` on `c` leaves `c` enabled, `Disable` on `a` leaves `a` disabled, and
`Enable` on the missing `b` is answered with the `NotFound` error of
`UpdateStatus`. -/
theorem User.Enable_Disable_use_enum_values_witness :
    (User.overStore.Enable (sample.request [] "c" (Except.error sample.parseError))
        sample.world).store.records = [sample.user "a" "alice" 1, sample.user "c" "carol" 1] ∧
    (User.overStore.Disable (sample.request [] "a" (Except.error sample.parseError))
        sample.world).store.records = [sample.user "a" "alice" 2, sample.user "c" "carol" 2] ∧
    (User.overStore.Enable (sample.request [] "b" (Except.error sample.parseError))
        sample.world).written = sample.world.written ++ [Response.ResError bll.ErrNotFound] :=
  ⟨(congrArg bll.Store.records
      (User.Enable_Disable_use_enum_values User.overStore
        (sample.request [] "c" (Except.error sample.parseError)) sample.world).2.1).trans
      (by decide),
   (congrArg bll.Store.records
      (User.Enable_Disable_use_enum_values User.overStore
        (sample.request [] "a" (Except.error sample.parseError)) sample.world).2.2.2.2.2.1).trans
      (by decide),
   (User.Enable_Disable_use_enum_values User.overStore
      (sample.request [] "b" (Except.error sample.parseError)) sample.world).2.2.2.1⟩

/-- C8: `Create` and `Update` are atomic with respect to a malformed body:
when `ParseJSON` fails with `err`, the response is exactly `err`, the business
layer is not invoked and its state is unchanged. -/
theorem User.Create_Update_malformed_body (a : User σ) (ctx : Context) (w : World σ)
    (err : errors.Error) (hparse : ctx.ParseJSON = Except.error err) :
    a.Create ctx w =
      { store := w.store, calls := w.calls, written := w.written ++ [Response.ResError err] } ∧
    a.Update ctx w =
      { store := w.store, calls := w.calls, written := w.written ++ [Response.ResError err] } := by
  constructor
  · simp [User.Create, hparse, ResError, World.write]
  · simp [User.Update, hparse, ResError, World.write]

/-- C8, on a request whose body does not parse. -/
theorem User.Create_Update_malformed_body_witness :
    (sample.request [] "a" (Except.error sample.parseError)).ParseJSON =
      Except.error sample.parseError ∧
    User.overStore.Create (sample.request [] "a" (Except.error sample.parseError)) sample.world =
      { store := sample.world.store, calls := sample.world.calls,
        written := sample.world.written ++ [Response.ResError sample.parseError] } ∧
    User.overStore.Update (sample.request [] "a" (Except.error sample.parseError)) sample.world =
      { store := sample.world.store, calls := sample.world.calls,
        written := sample.world.written ++ [Response.ResError sample.parseError] } :=
  ⟨rfl,
   User.Create_Update_malformed_body User.overStore
     (sample.request [] "a" (Except.error sample.parseError)) sample.world sample.parseError rfl⟩

end ctl

/-! ## Queries -/

namespace ctl

open context

variable {σ : Type}

/-- C7: `Query` dispatches on the `q` parameter: when `q` is exactly `page`
the handler is `QueryPage` on the same request (same response, same effect
on the business layer); for every other value it responds with the
bad-request error "未知的查询类型", invokes nothing and leaves the state of
the business layer unchanged. -/
theorem User.Query_dispatches_on_q (a : User σ) (ctx : Context) (w : World σ) :
    (ctx.Query "q" = "page" → a.Query ctx w = a.QueryPage ctx w) ∧
    (ctx.Query "q" ≠ "page" →
      a.Query ctx w =
        { store := w.store, calls := w.calls,
          written := w.written ++
            [Response.ResError (errors.NewBadRequestError "未知的查询类型")] }) := by
  constructor
  · intro h
    simp [User.Query, h]
  · intro h
    simp [User.Query, h, ResError, World.write]

/-- C7, on a request with `q=page` and on requests with `q=Page` and without
`q`. -/
theorem User.Query_dispatches_on_q_witness :
    User.overStore.Query (sample.request [("q", "page")] "" (Except.error sample.parseError))
        sample.world =
      User.overStore.QueryPage (sample.request [("q", "page")] ""
        (Except.error sample.parseError)) sample.world ∧
    User.overStore.Query (sample.request [("q", "Page")] "" (Except.error sample.parseError))
        sample.world =
      { store := sample.world.store, calls := sample.world.calls,
        written := sample.world.written ++
          [Response.ResError (errors.NewBadRequestError "未知的查询类型")] } ∧
    User.overStore.Query (sample.request [] "" (Except.error sample.parseError)) sample.world =
      { store := sample.world.store, calls := sample.world.calls,
        written := sample.world.written ++
          [Response.ResError (errors.NewBadRequestError "未知的查询类型")] } :=
  ⟨(User.Query_dispatches_on_q User.overStore
      (sample.request [("q", "page")] "" (Except.error sample.parseError)) sample.world).1
      (by decide),
   (User.Query_dispatches_on_q User.overStore
      (sample.request [("q", "Page")] "" (Except.error sample.parseError)) sample.world).2
      (by decide),
   (User.Query_dispatches_on_q User.overStore
      (sample.request [] "" (Except.error sample.parseError)) sample.world).2
      (by decide)⟩

/-- C9: `QueryPage` passes the filter through and returns the result
unchanged.  The business layer's `QueryPage` is invoked once, with a filter
whose `UserName`, `RealName` and `RoleID` are the query values `user_name`,
`real_name` and `role_id` and whose `Status` is the integer value of
`status` (`0` when `status` is absent), and with the pagination of the
request; on success the response is the page of exactly the items and the
pagination result returned, on failure exactly the error (and no page). -/
theorem User.QueryPage_passes_filter (a : User σ) (ctx : Context) (w : World σ) :
    (User.QueryPage.params ctx).UserName = ctx.Query "user_name" ∧
    (User.QueryPage.params ctx).RealName = ctx.Query "real_name" ∧
    (User.QueryPage.params ctx).RoleID = ctx.Query "role_id" ∧
    (User.QueryPage.params ctx).Status = util.S.Int (ctx.Query "status") ∧
    (ctx.Query "status" = "" → (User.QueryPage.params ctx).Status = 0) ∧
    (a.QueryPage ctx w).calls =
      w.calls ++ [bll.Call.QueryPage (User.QueryPage.params ctx) ctx.GetPaginationParam] ∧
    (∀ (s1 : σ) (items : List schema.UserPageShow) (pr : schema.PaginationResult),
      a.UserBll.QueryPage w.store (User.QueryPage.params ctx) ctx.GetPaginationParam =
        (s1, Except.ok (items, pr)) →
      (a.QueryPage ctx w).written = w.written ++ [Response.ResPage items pr]) ∧
    (∀ (s1 : σ) (err : errors.Error),
      a.UserBll.QueryPage w.store (User.QueryPage.params ctx) ctx.GetPaginationParam =
        (s1, Except.error err) →
      (a.QueryPage ctx w).written = w.written ++ [Response.ResError err]) := by
  refine ⟨rfl, rfl, rfl, rfl, ?_, ?_, ?_, ?_⟩
  · intro h
    simp only [User.QueryPage.params, h]
    rfl
  · unfold User.QueryPage
    simp only
    split <;> rename_i heq <;> simp only [World.invoke, Prod.mk.injEq] at heq <;>
      obtain ⟨hw, -⟩ := heq <;> subst hw <;> simp [ResError, ResPage, World.write]
  · intro s1 items pr h
    simp [User.QueryPage, h, World.invoke, ResPage, World.write]
  · intro s1 err h
    simp [User.QueryPage, h, World.invoke, ResError, World.write]

/-- C9, on the store with the records `a` (alice, enabled) and `c` (carol,
disabled): the request `user_name=car&status=2` hands the filter
`{UserName: car, Status: 2}` to the business layer and is answered with its
page; a request without `status` hands over status `0`; a request for page
`0` is answered with the error of the business layer. -/
theorem User.QueryPage_passes_filter_witness :
    (User.overStore.QueryPage (sample.request [("user_name", "car"), ("status", "2")] ""
        (Except.error sample.parseError)) sample.world).calls =
      sample.world.calls ++
        [bll.Call.QueryPage { UserName := "car", RealName := "", RoleID := "", Status := 2 }
          { current := 1, pageSize := 10 }] ∧
    (User.overStore.QueryPage (sample.request [("user_name", "car"), ("status", "2")] ""
        (Except.error sample.parseError)) sample.world).written =
      sample.world.written ++
        [Response.ResPage [sample.user "c" "carol" 2] { current := 1, pageSize := 10, total := 1 }] ∧
    (User.QueryPage.params (sample.request [("user_name", "car")] ""
        (Except.error sample.parseError))).Status = 0 ∧
    (User.overStore.QueryPage
        { sample.request [] "" (Except.error sample.parseError) with
          GetPaginationParam := { current := 0, pageSize := 10 } } sample.world).written =
      sample.world.written ++ [Response.ResError bll.ErrInvalidArgument] :=
  ⟨(User.QueryPage_passes_filter User.overStore
      (sample.request [("user_name", "car"), ("status", "2")] ""
        (Except.error sample.parseError)) sample.world).2.2.2.2.2.1,
   (User.QueryPage_passes_filter User.overStore
      (sample.request [("user_name", "car"), ("status", "2")] ""
        (Except.error sample.parseError)) sample.world).2.2.2.2.2.2.1
      sample.world.store [sample.user "c" "carol" 2] { current := 1, pageSize := 10, total := 1 }
      rfl,
   (User.QueryPage_passes_filter User.overStore
      (sample.request [("user_name", "car")] "" (Except.error sample.parseError))
      sample.world).2.2.2.2.1 (by decide),
   (User.QueryPage_passes_filter User.overStore
      { sample.request [] "" (Except.error sample.parseError) with
        GetPaginationParam := { current := 0, pageSize := 10 } } sample.world).2.2.2.2.2.2.2
      sample.world.store bll.ErrInvalidArgument rfl⟩

end ctl

/-! ## One response per invocation -/

namespace ctl

open context

variable {σ : Type}

/-- The loop of `DeleteMany` writes one error when it returns from the
handler and nothing when it runs to its end. -/
theorem User.DeleteMany.loop_written (a : User σ) (ids : List String) (w : World σ) :
    ((User.DeleteMany.loop a ids w).2 = true →
      ∃ e, (User.DeleteMany.loop a ids w).1.written = w.written ++ [Response.ResError e]) ∧
    ((User.DeleteMany.loop a ids w).2 = false →
      (User.DeleteMany.loop a ids w).1.written = w.written) := by
  induction ids generalizing w with
  | nil => simp [User.DeleteMany.loop]
  | cons id ids ih =>
    unfold User.DeleteMany.loop
    cases hr : a.UserBll.Delete w.store id with
    | mk s1 r =>
      cases r with
      | some err => simp [World.invoke, ResError, World.write]
      | none =>
        simp only [World.invoke]
        exact ih _

/-- C10: every handler writes exactly one response per invocation, for every
request and every outcome of the business layer: after the invocation the
responses written are those written before, followed by exactly one more
(an error or a success, never both and never none). -/
theorem User.handlers_write_one_response (a : User σ) (ctx : Context) (w : World σ) :
    WritesOneResponse a.Query ctx w ∧
    WritesOneResponse a.QueryPage ctx w ∧
    WritesOneResponse a.Get ctx w ∧
    WritesOneResponse a.Create ctx w ∧
    WritesOneResponse a.Update ctx w ∧
    WritesOneResponse a.Delete ctx w ∧
    WritesOneResponse a.DeleteMany ctx w ∧
    WritesOneResponse a.Enable ctx w ∧
    WritesOneResponse a.Disable ctx w := by
  have hpage : WritesOneResponse a.QueryPage ctx w := by
    unfold WritesOneResponse User.QueryPage
    cases hr : a.UserBll.QueryPage w.store (User.QueryPage.params ctx) ctx.GetPaginationParam with
    | mk s1 r => cases r <;> simp [hr, World.invoke, ResError, ResPage, World.write]
  refine ⟨?_, hpage, ?_, ?_, ?_, ?_, ?_, ?_, ?_⟩
  · by_cases hq : ctx.Query "q" = "page"
    · unfold WritesOneResponse at hpage ⊢
      simpa [User.Query, hq] using hpage
    · unfold WritesOneResponse
      simp [User.Query, hq, ResError, World.write]
  · unfold WritesOneResponse User.Get
    cases hr : a.UserBll.Get w.store (ctx.Param "id") with
    | mk s1 r => cases r <;> simp [World.invoke, ResError, ResSuccess, World.write]
  · unfold WritesOneResponse User.Create
    cases hp : ctx.ParseJSON with
    | error err => simp [ResError, World.write]
    | ok item =>
      cases hr : a.UserBll.Create w.store item with
      | mk s1 r => cases r <;> simp [hr, World.invoke, ResError, ResSuccess, World.write]
  · unfold WritesOneResponse User.Update
    cases hp : ctx.ParseJSON with
    | error err => simp [ResError, World.write]
    | ok item =>
      cases hr : a.UserBll.Update w.store (ctx.Param "id") item with
      | mk s1 r => cases r <;> simp [hr, World.invoke, ResError, ResOK, World.write]
  · unfold WritesOneResponse User.Delete
    cases hr : a.UserBll.Delete w.store (ctx.Param "id") with
    | mk s1 r => cases r <;> simp [World.invoke, ResError, ResOK, World.write]
  · unfold WritesOneResponse
    rw [User.DeleteMany_eq_loop]
    have hl := User.DeleteMany.loop_written a (strings.Split (ctx.Query "batch") ',') w
    cases hr : User.DeleteMany.loop a (strings.Split (ctx.Query "batch") ',') w with
    | mk w1 flag =>
      rw [hr] at hl
      cases flag with
      | true =>
        obtain ⟨e, he⟩ := hl.1 rfl
        exact ⟨Response.ResError e, he⟩
      | false =>
        have hw := hl.2 rfl
        simp only at hw
        exact ⟨Response.ResOK, by simp [ResOK, World.write, hw]⟩
  · unfold WritesOneResponse User.Enable
    cases hr : a.UserBll.UpdateStatus w.store (ctx.Param "id") 1 with
    | mk s1 r => cases r <;> simp [World.invoke, ResError, ResOK, World.write]
  · unfold WritesOneResponse User.Disable
    cases hr : a.UserBll.UpdateStatus w.store (ctx.Param "id") 2 with
    | mk s1 r => cases r <;> simp [World.invoke, ResError, ResOK, World.write]

end ctl

/-! ## What `Update` ignores -/

namespace bll

/-- The store's `Update` gives the same result for two items that differ
only in `RecordID` and `Status`. -/
theorem Store.Update_congr (s : Store) (id : String) (i1 i2 : schema.User)
    (hsame : { i1 with RecordID := i2.RecordID, Status := i2.Status } = i2) :
    Store.Update s id i1 = Store.Update s id i2 := by
  cases i1
  cases i2
  simp only [schema.User.mk.injEq, true_and] at hsame
  obtain ⟨h1, h2, h3, h4, h5⟩ := hsame
  subst h1 h2 h3 h4 h5
  rfl

/-- The store's `Update` changes neither the `RecordID` nor the `Status` of
any record. -/
theorem Store.Update_keeps_status (s : Store) (id : String) (item : schema.User) :
    (Store.Update s id item).1.records.map (fun u => (u.RecordID, u.Status)) =
      s.records.map (fun u => (u.RecordID, u.Status)) := by
  unfold Store.Update
  split
  · rfl
  · split
    · rfl
    · simp only [List.map_map]
      apply List.map_congr_left
      intro u _
      simp only [Function.comp]
      split <;> rfl

end bll

namespace ctl

open context

/-- C6: over the business layer of the specification, `Update` ignores the
`RecordID` and `Status` fields of the submitted item: two requests with the
same path id whose bodies differ only in `RecordID` and `Status` leave the
same state and get the same response; and `Update` never changes the
`RecordID` or the `Status` of any record. -/
theorem User.Update_ignores_RecordID_and_Status (ctx1 ctx2 : Context) (w : World bll.Store)
    (i1 i2 : schema.User)
    (hid : ctx1.Param "id" = ctx2.Param "id")
    (h1 : ctx1.ParseJSON = Except.ok i1) (h2 : ctx2.ParseJSON = Except.ok i2)
    (hsame : { i1 with RecordID := i2.RecordID, Status := i2.Status } = i2) :
    (User.overStore.Update ctx1 w).store = (User.overStore.Update ctx2 w).store ∧
    (User.overStore.Update ctx1 w).written = (User.overStore.Update ctx2 w).written ∧
    (User.overStore.Update ctx1 w).store.records.map (fun u => (u.RecordID, u.Status)) =
      w.store.records.map (fun u => (u.RecordID, u.Status)) := by
  have hkeep := bll.Store.Update_keeps_status w.store (ctx1.Param "id") i1
  have hcongr := bll.Store.Update_congr w.store (ctx2.Param "id") i1 i2 hsame
  have hU : bll.Store.UserBll.Update = bll.Store.Update := rfl
  unfold User.Update
  simp only [h1, h2, hid, User.overStore, hU] at hkeep ⊢
  rw [← hcongr]
  cases hr : bll.Store.Update w.store (ctx2.Param "id") i1 with
  | mk s1 r =>
    rw [hr] at hkeep
    cases r <;> simpa [World.invoke, ResError, ResOK, World.write] using hkeep

/-- C6, on the store with the records `a` (alice, enabled) and `c`: the
bodies `{record_id: zzz, user_name: bob, status: 2}` and
`{record_id: a, user_name: bob, status: 1}` sent to `a` have the same effect,
and `a` stays enabled. -/
theorem User.Update_ignores_RecordID_and_Status_witness :
    (User.overStore.Update (sample.request [] "a" (Except.ok (sample.user "zzz" "bob" 2)))
        sample.world).store =
      (User.overStore.Update (sample.request [] "a" (Except.ok (sample.user "a" "bob" 1)))
        sample.world).store ∧
    (User.overStore.Update (sample.request [] "a" (Except.ok (sample.user "zzz" "bob" 2)))
        sample.world).store.records = [sample.user "a" "bob" 1, sample.user "c" "carol" 2] :=
  ⟨(User.Update_ignores_RecordID_and_Status
      (sample.request [] "a" (Except.ok (sample.user "zzz" "bob" 2)))
      (sample.request [] "a" (Except.ok (sample.user "a" "bob" 1)))
      sample.world (sample.user "zzz" "bob" 2) (sample.user "a" "bob" 1) rfl rfl rfl rfl).1,
   by decide⟩

end ctl
